import Mathlib

/-!
Shallow embedding of the session-cart / checkout / credential-verification
core of the Mani-QA/ecommerce web application.

The modelled source files:
* apps/web/src/worker/routes/cart.ts      (cart routes and order routes)
* src/unnamed/part_017                    (admin stock-update route)
* src/unnamed/part_015                    (product update route)
* src/packages/shared/src/schemas.ts      (zod request schemas)
* apps/web/src/worker/routes/auth.ts      (login flow)
* src/unnamed/part_019                    (password hashing service)

SQL tables (`products`, `orders`) keyed by their integer primary key are
embedded as functions `Nat → Option row`; the KV cart store is a function
`String → Option Cart`; `order_items` (no claim-relevant key) is a list of
rows.  JavaScript numbers holding money are embedded as `Rat`, stock values
as `Int` (so that the non-negativity of stock is a genuine property, not a
typing artifact), and validated integer quantities as `Nat`.

Every route handler throws (`errors.<kind>`) strictly before its first
database / KV write, so an error outcome leaves the store unchanged; the
embedding hence returns `Except ErrCode State` and the system-level small
step (`step`) keeps the old state on an error.
-/

/-- Error codes produced by `errors.*` in middleware/error-handler
(`NOT_FOUND`, `OUT_OF_STOCK`, `VALIDATION_ERROR`, `CART_EMPTY`). -/
inductive ErrCode where
  | notFound
  | outOfStock
  | validation
  | cartEmpty
deriving DecidableEq, Repr

/-- A row of the `products` table (claim-relevant columns). -/
structure Product where
  name : String
  price : Rat
  stock : Int
  isActive : Bool
deriving DecidableEq, Repr

/-- One line of the KV cart record (`CartData.items` entry in cart.ts). -/
structure CartLine where
  productId : Nat
  quantity : Nat
deriving DecidableEq, Repr

/-- The `items` list of a KV cart record. -/
abbrev Cart := List CartLine

/-- Shipping fields of `createOrderSchema`. -/
structure Shipping where
  firstName : String
  lastName : String
  address : String
deriving DecidableEq, Repr

/-- A row of the `orders` table (claim-relevant columns). -/
structure Order where
  id : Nat
  userId : Nat
  totalAmount : Rat
  status : String
  shippingFirstName : String
  shippingLastName : String
  shippingAddress : String
deriving DecidableEq, Repr

/-- A row of the `order_items` table. -/
structure OrderItemRow where
  orderId : Nat
  productId : Nat
  quantity : Nat
  unitPrice : Rat
deriving DecidableEq, Repr

/-- The claim-relevant persistent state: `products` and `orders` tables
(keyed by primary key), `order_items` rows, the KV cart store, and the
next `last_row_id` the database will hand out for `orders`. -/
structure State where
  products : Nat → Option Product
  carts : String → Option Cart
  orders : Nat → Option Order
  orderItems : List OrderItemRow
  nextOrderId : Nat

/-- Point update of a keyed table. -/
def updateFun {α β : Type} [DecidableEq α] (f : α → Option β) (k : α) (v : Option β) :
    α → Option β :=
  fun x => if x = k then v else f x

/-- `SELECT * FROM products WHERE id = ? AND is_active = 1`. -/
def findActiveProduct (products : Nat → Option Product) (pid : Nat) : Option Product :=
  match products pid with
  | some p => if p.isActive then some p else none
  | none => none

/-- `getCart` in cart.ts: the stored record, defaulting to an empty cart. -/
def getCartData (s : State) (sid : String) : Cart :=
  (s.carts sid).getD []

/-- `cart.items.find((item) => item.productId === productId)?.quantity`. -/
def lineQty? (cart : Cart) (pid : Nat) : Option Nat :=
  (cart.find? (fun it => it.productId == pid)).map (fun it => it.quantity)

/-- `cart.items.findIndex(...) !== -1`. -/
def hasLine (cart : Cart) (pid : Nat) : Bool :=
  cart.any (fun it => it.productId == pid)

/-- Assigning a quantity to the first line matching `pid`
(`existingItem.quantity = newQuantity` resp. `cart.items[itemIndex].quantity = quantity`,
where the index is the first match). -/
def setQtyFirst : Cart → Nat → Nat → Cart
  | [], _, _ => []
  | it :: rest, pid, q =>
    if it.productId == pid then { it with quantity := q } :: rest
    else it :: setQtyFirst rest pid q

/-- `cart.items.splice(itemIndex, 1)` at the first index matching `pid`. -/
def removeFirst : Cart → Nat → Cart
  | [], _ => []
  | it :: rest, pid =>
    if it.productId == pid then rest else it :: removeFirst rest pid

/-- Request-schema bound `addToCartSchema`:
`productId: int positive`, `quantity: int positive max 99`. -/
def addToCartSchemaOk (productId quantity : Nat) : Prop :=
  0 < productId ∧ 0 < quantity ∧ quantity ≤ 99

/-- Request-schema bound `updateCartItemSchema`: `quantity: int min 0 max 99`. -/
def updateCartItemSchemaOk (quantity : Nat) : Prop :=
  quantity ≤ 99

/-- Request-schema bound `updateStockSchema`: `stock: int min 0`. -/
def updateStockSchemaOk (stock : Int) : Prop :=
  0 ≤ stock

/-- `POST /api/cart/items` (cart.ts).  A missing `X-Session-ID` header makes
`getSessionId` throw a validation error; then the product must resolve as an
active row; the prospective quantity (existing line quantity plus the request)
is checked against current stock; on success the line is upserted. -/
def addItem (s : State) (sid? : Option String) (productId quantity : Nat) :
    Except ErrCode State :=
  match sid? with
  | none => .error .validation
  | some sid =>
    match findActiveProduct s.products productId with
    | none => .error .notFound
    | some product =>
      let cart := getCartData s sid
      let existing := lineQty? cart productId
      let newQuantity : Nat := match existing with
        | some q0 => q0 + quantity
        | none => quantity
      if (newQuantity : Int) > product.stock then .error .outOfStock
      else
        let cart' := match existing with
          | some _ => setQtyFirst cart productId newQuantity
          | none => cart ++ [⟨productId, quantity⟩]
        .ok { s with carts := updateFun s.carts sid (some cart') }

/-- `PATCH /api/cart/items/:productId` (cart.ts).  The route-parameter guard
rejects a non-positive id; a missing line is `NOT_FOUND`; quantity 0 removes
the line; otherwise the stock of `SELECT stock, name FROM products WHERE id = ?`
(note: no `is_active` filter, and no check at all when the row is absent)
bounds the new quantity. -/
def updateItem (s : State) (sid? : Option String) (productId quantity : Nat) :
    Except ErrCode State :=
  match sid? with
  | none => .error .validation
  | some sid =>
    if productId = 0 then .error .validation
    else
      let cart := getCartData s sid
      if ¬ hasLine cart productId then .error .notFound
      else if quantity = 0 then
        .ok { s with carts := updateFun s.carts sid (some (removeFirst cart productId)) }
      else
        match s.products productId with
        | some product =>
          if (quantity : Int) > product.stock then .error .outOfStock
          else .ok { s with
            carts := updateFun s.carts sid (some (setQtyFirst cart productId quantity)) }
        | none =>
          .ok { s with
            carts := updateFun s.carts sid (some (setQtyFirst cart productId quantity)) }

/-- `DELETE /api/cart/items/:productId` (cart.ts). -/
def removeItem (s : State) (sid? : Option String) (productId : Nat) :
    Except ErrCode State :=
  match sid? with
  | none => .error .validation
  | some sid =>
    if productId = 0 then .error .validation
    else
      let cart := getCartData s sid
      if ¬ hasLine cart productId then .error .notFound
      else .ok { s with carts := updateFun s.carts sid (some (removeFirst cart productId)) }

/-- `DELETE /api/cart` (cart.ts): unconditionally deletes the KV record. -/
def clearCart (s : State) (sid? : Option String) : Except ErrCode State :=
  match sid? with
  | none => .error .validation
  | some sid => .ok { s with carts := updateFun s.carts sid none }

/-- One entry of the `GET /api/cart` response item list. -/
structure CartViewItem where
  productId : Nat
  quantity : Nat
  price : Rat
deriving DecidableEq, Repr

/-- The `GET /api/cart` response body. -/
structure CartView where
  items : List CartViewItem
  totalItems : Nat
  totalAmount : Rat
deriving DecidableEq, Repr

/-- `GET /api/cart` (cart.ts): empty carts short-circuit; otherwise lines are
joined against active products (lines whose product does not resolve are
silently dropped from the response) and totals are summed. -/
def readCart (s : State) (sid? : Option String) : Except ErrCode CartView :=
  match sid? with
  | none => .error .validation
  | some sid =>
    let cart := getCartData s sid
    if cart.length = 0 then .ok ⟨[], 0, 0⟩
    else
      let cartItems := cart.filterMap (fun it =>
        (findActiveProduct s.products it.productId).map
          (fun p => CartViewItem.mk it.productId it.quantity p.price))
      .ok ⟨cartItems, (cartItems.map (fun ci => ci.quantity)).sum,
           (cartItems.map (fun ci => (ci.quantity : Rat) * ci.price)).sum⟩

/-- Modelled from the spec: `isValidCardNumber` is imported from the
`@qademo/shared` package whose utility source file is not part of this
snapshot.  The spec defines it as "mod-10 digit-sum validity, a.k.a. Luhn":
walking the digits from the right, every second digit is doubled (subtracting
9 when the double exceeds 9) and the number is valid when the resulting digit
sum is a multiple of 10; non-digit or empty input is invalid. -/
def luhnDouble (d : Nat) : Nat :=
  if 2 * d > 9 then 2 * d - 9 else 2 * d

/-- Luhn digit sum over the digit list in right-to-left order. -/
def luhnSum : List Nat → Nat
  | [] => 0
  | [d] => d
  | d :: d2 :: rest => d + luhnDouble d2 + luhnSum rest

/-- Modelled from the spec (see `luhnDouble`): mod-10 checksum validity of a
card-number string. -/
def isValidCardNumber (card : String) : Bool :=
  let ds := card.data
  ¬ ds.isEmpty && ds.all Char.isDigit &&
    luhnSum ((ds.reverse).map (fun c => c.toNat - 48)) % 10 = 0

/-- An element of the `orderItems` array the checkout handler accumulates
while validating the cart. -/
structure OrderItemDraft where
  productId : Nat
  quantity : Nat
  price : Rat
deriving DecidableEq, Repr

/-- The `for (const item of cartData.items)` validation loop of
`POST /api/orders`: items must resolve against the batch-read active-product
map and have sufficient stock; the total and the order-item drafts are
accumulated. -/
def checkoutLoop (pm : Nat → Option Product) :
    List CartLine → Rat → List OrderItemDraft → Except ErrCode (Rat × List OrderItemDraft)
  | [], total, acc => .ok (total, acc)
  | item :: rest, total, acc =>
    match pm item.productId with
    | none => .error .notFound
    | some product =>
      if product.stock < (item.quantity : Int) then .error .outOfStock
      else checkoutLoop pm rest (total + product.price * (item.quantity : Rat))
        (acc ++ [⟨item.productId, item.quantity, product.price⟩])

/-- `UPDATE products SET stock = stock - ? WHERE id = ?` for one order item. -/
def decrementStock (products : Nat → Option Product) (it : OrderItemDraft) :
    Nat → Option Product :=
  fun k =>
    if k = it.productId then
      (products k).map (fun p => { p with stock := p.stock - (it.quantity : Int) })
    else products k

/-- `POST /api/orders` (checkout).  In source order: Luhn validation of the
card number; a missing `X-Session-ID` header or a missing/empty cart record is
`CART_EMPTY`; the validation loop re-reads products and stock; only then are
the order header, the order items and the stock decrements written and the
cart record deleted. -/
def checkout (s : State) (userId : Nat) (sid? : Option String) (cardNumber : String)
    (ship : Shipping) : Except ErrCode State :=
  if ¬ isValidCardNumber cardNumber then .error .validation
  else
    match sid? with
    | none => .error .cartEmpty
    | some sid =>
      match s.carts sid with
      | none => .error .cartEmpty
      | some cart =>
        if cart.length = 0 then .error .cartEmpty
        else
          match checkoutLoop (fun pid => findActiveProduct s.products pid) cart 0 [] with
          | .error e => .error e
          | .ok (totalAmount, orderItems) =>
            let orderId := s.nextOrderId
            let order : Order :=
              ⟨orderId, userId, totalAmount, "pending",
               ship.firstName, ship.lastName, ship.address⟩
            .ok { products := orderItems.foldl decrementStock s.products
                  carts := updateFun s.carts sid none
                  orders := updateFun s.orders orderId (some order)
                  orderItems := s.orderItems ++
                    orderItems.map (fun it => ⟨orderId, it.productId, it.quantity, it.price⟩)
                  nextOrderId := orderId + 1 }

/-- `PATCH /api/admin/products/:id/stock` (src/unnamed/part_017): id guard,
existence check, then `UPDATE products SET stock = ? WHERE id = ?`. -/
def adminUpdateStock (s : State) (productId : Nat) (stock : Int) :
    Except ErrCode State :=
  if productId = 0 then .error .validation
  else
    match s.products productId with
    | none => .error .notFound
    | some p =>
      .ok { s with products := updateFun s.products productId (some { p with stock := stock }) }

/-- Body of `updateProductSchema` (claim-relevant optional fields). -/
structure UpdateProductInput where
  name : Option String
  price : Option Rat
  stock : Option Int
  isActive : Option Bool
deriving DecidableEq, Repr

/-- `updates.length === 0` guard of the product-update route. -/
def hasAnyField (u : UpdateProductInput) : Bool :=
  u.name.isSome || u.price.isSome || u.stock.isSome || u.isActive.isSome

/-- The dynamically-built `UPDATE products SET ...` of the update route:
each supplied field overwrites the stored column. -/
def applyProductUpdate (u : UpdateProductInput) (p : Product) : Product :=
  { name := u.name.getD p.name
    price := u.price.getD p.price
    stock := u.stock.getD p.stock
    isActive := u.isActive.getD p.isActive }

/-- `PATCH /api/products/:id` (src/unnamed/part_015): id guard, existence
check, empty-update guard, then a single `UPDATE products ...`; no other
table is touched. -/
def updateProduct (s : State) (productId : Nat) (u : UpdateProductInput) :
    Except ErrCode State :=
  if productId = 0 then .error .validation
  else
    match s.products productId with
    | none => .error .notFound
    | some p =>
      if ¬ hasAnyField u then .error .validation
      else
        .ok { s with
          products := updateFun s.products productId (some (applyProductUpdate u p)) }

/-- One entry of the `GET /api/orders/:id` response item list. -/
structure FetchedOrderItem where
  productId : Nat
  quantity : Nat
  unitPrice : Rat
  productName : String
deriving DecidableEq, Repr

/-- The order-items query of `GET /api/orders/:id`:
`SELECT oi.*, p.name FROM order_items oi JOIN products p ON oi.product_id = p.id
WHERE oi.order_id = ?` (the inner join drops rows whose product id no longer
resolves; products are only ever soft-deleted). -/
def getOrderItems (s : State) (orderId : Nat) : List FetchedOrderItem :=
  (s.orderItems.filter (fun oi => oi.orderId == orderId)).filterMap (fun oi =>
    (s.products oi.productId).map (fun p =>
      ⟨oi.productId, oi.quantity, oi.unitPrice, p.name⟩))

/-- `GET /api/orders/:id`: id guard, ownership check (admins bypass it),
then the joined item list. -/
def getOrder (s : State) (userId : Nat) (isAdmin : Bool) (orderId : Nat) :
    Except ErrCode (Order × List FetchedOrderItem) :=
  if orderId = 0 then .error .validation
  else
    match s.orders orderId with
    | none => .error .notFound
    | some o =>
      if isAdmin ∨ o.userId = userId then .ok (o, getOrderItems s orderId)
      else .error .notFound

/-- The single-threaded operations the invariant claims quantify over:
cart mutations, admin stock updates and checkouts. -/
inductive Event where
  | add (sid : String) (productId quantity : Nat)
  | update (sid : String) (productId quantity : Nat)
  | remove (sid : String) (productId : Nat)
  | clear (sid : String)
  | adminStock (productId : Nat) (stock : Int)
  | checkout (userId : Nat) (sid? : Option String) (cardNumber : String) (ship : Shipping)

/-- The zod request validation each event's payload passed before reaching
its handler. -/
def eventValid : Event → Prop
  | .add _ pid q => addToCartSchemaOk pid q
  | .update _ _ q => updateCartItemSchemaOk q
  | .adminStock _ st => updateStockSchemaOk st
  | _ => True

/-- Dispatch an event to its route handler. -/
def applyEvent (s : State) : Event → Except ErrCode State
  | .add sid pid q => addItem s (some sid) pid q
  | .update sid pid q => updateItem s (some sid) pid q
  | .remove sid pid => removeItem s (some sid) pid
  | .clear sid => clearCart s (some sid)
  | .adminStock pid st => adminUpdateStock s pid st
  | .checkout u sid card ship => checkout s u sid card ship

/-- System small step: a handler that throws leaves the store unchanged
(every handler's throws precede its first write). -/
def step (s : State) (e : Event) : State :=
  match applyEvent s e with
  | .ok s' => s'
  | .error _ => s

/-- Run a single-threaded sequence of requests. -/
def runEvents (s : State) (es : List Event) : State :=
  es.foldl step s

/-- Stock column of every `products` row is non-negative. -/
def stocksNonnegF (products : Nat → Option Product) : Prop :=
  ∀ pid p, products pid = some p → 0 ≤ p.stock

/-- Stock invariant on a whole state. -/
def stocksNonneg (s : State) : Prop :=
  stocksNonnegF s.products

/-- The product ids of a cart record. -/
def cartPids (c : Cart) : List Nat :=
  c.map (fun it => it.productId)

/-- No stored cart record holds two lines for the same product. -/
def cartsNodup (s : State) : Prop :=
  ∀ sid c, s.carts sid = some c → (cartPids c).Nodup

/-- Cart-record invariant of the claims: at most one line per product and
every line quantity at least 1. -/
def cartOk (c : Cart) : Prop :=
  (cartPids c).Nodup ∧ ∀ l ∈ c, 1 ≤ l.quantity

/-- Every stored cart record satisfies `cartOk`. -/
def cartsOk (s : State) : Prop :=
  ∀ sid c, s.carts sid = some c → cartOk c

/-- Catalog total of a cart: Σ (unit price at read time × quantity), prices
read through the active-product lookup the checkout handler uses. -/
def cartCatalogTotal (pm : Nat → Option Product) (cart : Cart) : Rat :=
  (cart.map (fun l =>
    match pm l.productId with
    | some p => p.price * (l.quantity : Rat)
    | none => 0)).sum

/-- The order-item drafts the checkout loop produces for a fully-resolving cart. -/
def cartDrafts (pm : Nat → Option Product) (cart : Cart) : List OrderItemDraft :=
  cart.map (fun l =>
    match pm l.productId with
    | some p => ⟨l.productId, l.quantity, p.price⟩
    | none => ⟨l.productId, l.quantity, 0⟩)

/-- Lowercase hex digit of a nibble (`b.toString(16)` digit alphabet). -/
def hexDigit : Nat → Char
  | 0 => '0' | 1 => '1' | 2 => '2' | 3 => '3' | 4 => '4'
  | 5 => '5' | 6 => '6' | 7 => '7' | 8 => '8' | 9 => '9'
  | 10 => 'a' | 11 => 'b' | 12 => 'c' | 13 => 'd' | 14 => 'e' | 15 => 'f'
  | _ => 'x'

/-- `b.toString(16).padStart(2, '0')` for a `Uint8Array` byte. -/
def byteToHex (b : Nat) : List Char :=
  [hexDigit (b / 16), hexDigit (b % 16)]

/-- Value of one hexadecimal character, as accepted by `parseInt(_, 16)`
(decimal digits, and both lowercase and uppercase letters up to f). -/
def hexVal? (c : Char) : Option Nat :=
  if 48 ≤ c.toNat ∧ c.toNat ≤ 57 then some (c.toNat - 48)
  else if 97 ≤ c.toNat ∧ c.toNat ≤ 102 then some (c.toNat - 87)
  else if 65 ≤ c.toNat ∧ c.toNat ≤ 70 then some (c.toNat - 55)
  else none

/-- `parseInt(pair, 16)` on a 2-character chunk, coerced through `Uint8Array`
(`parseInt` reads the longest valid prefix and yields NaN when there is none;
storing NaN in a `Uint8Array` stores 0). -/
def parseHexPair (c1 c2 : Char) : Nat :=
  match hexVal? c1, hexVal? c2 with
  | some a, some b => 16 * a + b
  | some a, none => a
  | none, _ => 0

/-- `hex.match(/.{2}/g).map((b) => parseInt(b, 16))`: non-overlapping
2-character chunks (a trailing odd character is not matched). -/
def parseHexBytes : List Char → List Nat
  | c1 :: c2 :: rest => parseHexPair c1 c2 :: parseHexBytes rest
  | _ => []

/-- `storedHash.split(':')` (single-character separator, empties kept). -/
def splitOnChar (sep : Char) : List Char → List (List Char)
  | [] => [[]]
  | c :: rest =>
    if c = sep then [] :: splitOnChar sep rest
    else
      match splitOnChar sep rest with
      | [] => [[c]]
      | g :: gs => (c :: g) :: gs

/-- `hashPassword` (src/unnamed/part_019): hex of the random salt and hex of
the PBKDF2-derived key, joined by a colon.  The Web-Crypto key derivation is
not executable here, so it is a parameter `kdf` (password and salt to derived
bytes), and the random salt is a parameter as well. -/
def hashPassword (kdf : String → List Nat → List Nat) (salt : List Nat)
    (password : String) : List Char :=
  salt.flatMap byteToHex ++ ':' :: (kdf password salt).flatMap byteToHex

/-- `verifyPassword` (src/unnamed/part_019): split the stored value on the
colon, reject when either part is missing or empty, parse the salt hex back
to bytes (a chunkless salt hex makes the non-null assertion throw, which the
surrounding try/catch turns into `false`), re-derive and compare hex strings. -/
def verifyPassword (kdf : String → List Nat → List Nat) (password : String)
    (storedHash : List Char) : Bool :=
  match splitOnChar ':' storedHash with
  | saltHex :: expectedHashHex :: _ =>
    if saltHex.isEmpty || expectedHashHex.isEmpty then false
    else if saltHex.length < 2 then false
    else
      let salt := parseHexBytes saltHex
      let hashHex := (kdf password salt).flatMap byteToHex
      hashHex == expectedHashHex
  | _ => false

/-- `isNewHashFormat` (src/unnamed/part_019):
`hash.includes(':') && hash.split(':').length === 2`. -/
def isNewHashFormat (hash : List Char) : Bool :=
  hash.contains ':' && (splitOnChar ':' hash).length == 2

/-- The fixed `testPasswords` table of the login handler (auth.ts). -/
def testPasswords (username : String) : Option String :=
  if username = "standard_user" then some "standard123"
  else if username = "locked_user" then some "locked123"
  else if username = "admin_user" then some "admin123"
  else none

/-- A row of the `users` table (claim-relevant columns). -/
structure UserRow where
  id : Nat
  username : String
  passwordHash : List Char
  userType : String
deriving DecidableEq, Repr

/-- Outcome of `POST /api/auth/login`; on success the (possibly migrated)
stored user row is returned. -/
inductive LoginResult where
  | success (user : UserRow)
  | invalidCredentials
  | accountLocked
deriving DecidableEq, Repr

/-- The login flow of auth.ts for a looked-up user row: locked accounts are
rejected first; a hash-format credential goes through PBKDF2 verification; a
legacy credential is compared against the fixed test-password table and, on a
match, rewritten in place to the new hash format. -/
def login (kdf : String → List Nat → List Nat) (salt : List Nat)
    (user? : Option UserRow) (username password : String) : LoginResult :=
  match user? with
  | none => .invalidCredentials
  | some u =>
    if u.userType = "locked" then .accountLocked
    else
      let checked : Bool × UserRow :=
        if isNewHashFormat u.passwordHash then
          (verifyPassword kdf password u.passwordHash, u)
        else
          if testPasswords username = some password then
            (true, { u with passwordHash := hashPassword kdf salt password })
          else (false, u)
      if checked.1 then .success checked.2 else .invalidCredentials

/-- A sample active product (price 10, stock 5) for concrete instances. -/
def exProduct : Product := ⟨"Widget", 10, 5, true⟩

/-- A sample shipping payload for concrete instances. -/
def exShip : Shipping := ⟨"Ada", "Lovelace", "1 Main St"⟩

/-- A sample store: one active product and one session cart holding two units
of it. -/
def exState : State :=
  { products := fun pid => if pid = 1 then some exProduct else none
    carts := fun sid => if sid = "s1" then some [⟨1, 2⟩] else none
    orders := fun _ => none
    orderItems := []
    nextOrderId := 1 }

/-- A store whose KV cart record for session "s1" holds two lines for the
same product (stock 5, each line quantity 5). -/
def dupCartState : State :=
  { products := fun pid => if pid = 1 then some ⟨"Gadget", 1, 5, true⟩ else none
    carts := fun sid => if sid = "s1" then some [⟨1, 5⟩, ⟨1, 5⟩] else none
    orders := fun _ => none
    orderItems := []
    nextOrderId := 1 }

/-- The single checkout request used against `dupCartState`. -/
def dupCartEvents : List Event := [.checkout 7 (some "s1") "4111111111111111" exShip]

/-- A store with no products, no carts and no orders. -/
def emptyState : State :=
  { products := fun _ => none
    carts := fun _ => none
    orders := fun _ => none
    orderItems := []
    nextOrderId := 1 }

/-- A stand-in key-derivation function for concrete instances (the real
PBKDF2 is a parameter of the model). -/
def zeroKdf : String → List Nat → List Nat := fun _ _ => List.replicate 32 0

/-- A fixed 16-byte salt for concrete instances. -/
def zeroSalt : List Nat := List.replicate 16 0

/-- A seeded user row in legacy credential format (no colon in the stored
credential), non-locked. -/
def stdUser : UserRow := ⟨1, "standard_user", "legacyhash".data, "standard"⟩

/-- The seeded locked-account user row in legacy credential format. -/
def lockedUser : UserRow := ⟨2, "locked_user", "legacyhash".data, "locked"⟩

/-- A mixed single-threaded request sequence: add to cart, update the line,
admin stock update, checkout. -/
def mixedEvents : List Event :=
  [.add "s1" 1 2, .update "s1" 1 5, .adminStock 1 7,
   .checkout 7 (some "s1") "4111111111111111" exShip]

/-- The sample catalog with no cart records at all. -/
def noCartState : State :=
  { products := fun pid => if pid = 1 then some exProduct else none
    carts := fun _ => none
    orders := fun _ => none
    orderItems := []
    nextOrderId := 1 }

/-- A cart-building request sequence: add two units, update the line to five,
admin restock. -/
def c7Events : List Event := [.add "s1" 1 2, .update "s1" 1 5, .adminStock 1 7]


theorem hasLine_cons (it : CartLine) (rest : Cart) (pid : Nat) :
    hasLine (it :: rest) pid = (it.productId == pid || hasLine rest pid) := rfl

theorem lineQty?_cons (it : CartLine) (rest : Cart) (pid : Nat) :
    lineQty? (it :: rest) pid =
      if it.productId == pid then some it.quantity else lineQty? rest pid := by
  cases hb : (it.productId == pid) with
  | true => simp [lineQty?, List.find?, hb]
  | false => simp [lineQty?, List.find?, hb]

theorem removeFirst_sublist (c : Cart) (pid : Nat) : (removeFirst c pid).Sublist c := by
  induction c with
  | nil => exact List.Sublist.refl _
  | cons it rest ih =>
    simp only [removeFirst]
    by_cases hb : (it.productId == pid) = true
    · rw [if_pos hb]; exact List.Sublist.cons _ (List.Sublist.refl _)
    · rw [if_neg hb]; exact List.Sublist.cons₂ _ ih

theorem cartPids_setQtyFirst (c : Cart) (pid q : Nat) :
    cartPids (setQtyFirst c pid q) = cartPids c := by
  induction c with
  | nil => rfl
  | cons it rest ih =>
    simp only [setQtyFirst]
    by_cases hb : (it.productId == pid) = true
    · rw [if_pos hb]; simp [cartPids]
    · rw [if_neg hb]; simp only [cartPids, List.map_cons] at ih ⊢
      rw [ih]

theorem mem_setQtyFirst {c : Cart} {pid q : Nat} {l : CartLine}
    (h : l ∈ setQtyFirst c pid q) : l ∈ c ∨ l.quantity = q := by
  induction c with
  | nil => simp [setQtyFirst] at h
  | cons it rest ih =>
    simp only [setQtyFirst] at h
    by_cases hb : (it.productId == pid) = true
    · rw [if_pos hb] at h
      rcases List.mem_cons.mp h with h1 | h1
      · right; rw [h1]
      · left; exact List.mem_cons_of_mem _ h1
    · rw [if_neg hb] at h
      rcases List.mem_cons.mp h with h1 | h1
      · left; rw [h1]; exact List.mem_cons_self _ _
      · rcases ih h1 with h2 | h2
        · left; exact List.mem_cons_of_mem _ h2
        · right; exact h2

theorem lineQty?_setQtyFirst_self {c : Cart} {pid : Nat} (q : Nat)
    (h : hasLine c pid = true) : lineQty? (setQtyFirst c pid q) pid = some q := by
  induction c with
  | nil => simp [hasLine] at h
  | cons it rest ih =>
    by_cases hb : (it.productId == pid) = true
    · simp only [setQtyFirst, if_pos hb]
      rw [lineQty?_cons]
      simp [hb]
    · simp only [setQtyFirst, if_neg hb]
      rw [lineQty?_cons, if_neg hb]
      apply ih
      rw [hasLine_cons] at h
      simpa [hb] using h

theorem lineQty?_setQtyFirst_other {c : Cart} {pid pid2 q : Nat} (h : pid2 ≠ pid) :
    lineQty? (setQtyFirst c pid q) pid2 = lineQty? c pid2 := by
  induction c with
  | nil => rfl
  | cons it rest ih =>
    by_cases hb : (it.productId == pid) = true
    · simp only [setQtyFirst, if_pos hb]
      rw [lineQty?_cons, lineQty?_cons]
      have : (it.productId == pid2) = false := by
        have := beq_iff_eq.mp hb
        simp [this, Ne.symm h]
      simp [this]
    · simp only [setQtyFirst, if_neg hb]
      rw [lineQty?_cons, lineQty?_cons, ih]

theorem lineQty?_removeFirst_other {c : Cart} {pid pid2 : Nat} (h : pid2 ≠ pid) :
    lineQty? (removeFirst c pid) pid2 = lineQty? c pid2 := by
  induction c with
  | nil => rfl
  | cons it rest ih =>
    by_cases hb : (it.productId == pid) = true
    · simp only [removeFirst, if_pos hb]
      rw [lineQty?_cons]
      have : (it.productId == pid2) = false := by
        have := beq_iff_eq.mp hb
        simp [this, Ne.symm h]
      simp [this]
    · simp only [removeFirst, if_neg hb]
      rw [lineQty?_cons, lineQty?_cons, ih]

theorem lineQty?_removeFirst_self {c : Cart} {pid : Nat}
    (hnd : (cartPids c).Nodup) : lineQty? (removeFirst c pid) pid = none := by
  induction c with
  | nil => rfl
  | cons it rest ih =>
    simp only [cartPids, List.map_cons, List.nodup_cons] at hnd
    by_cases hb : (it.productId == pid) = true
    · simp only [removeFirst, if_pos hb]
      have hpid := beq_iff_eq.mp hb
      simp only [lineQty?]
      rw [List.find?_eq_none.mpr]
      · rfl
      · intro l hl hcontra
        exact hnd.1 (hpid ▸ (beq_iff_eq.mp hcontra) ▸ List.mem_map_of_mem _ hl)
    · simp only [removeFirst, if_neg hb]
      rw [lineQty?_cons, if_neg hb]
      exact ih hnd.2

theorem hasLine_iff_lineQty? (c : Cart) (pid : Nat) :
    hasLine c pid = false ↔ lineQty? c pid = none := by
  induction c with
  | nil => simp [hasLine, lineQty?]
  | cons it rest ih =>
    rw [hasLine_cons, lineQty?_cons]
    by_cases hb : (it.productId == pid) = true
    · simp [hb]
    · simp only [Bool.not_eq_true] at hb
      simp [hb, ih]

theorem cartCatalogTotal_cons (pm : Nat → Option Product) (l : CartLine) (rest : Cart) :
    cartCatalogTotal pm (l :: rest) =
      (match pm l.productId with
        | some p => p.price * (l.quantity : Rat)
        | none => 0) + cartCatalogTotal pm rest := by
  simp [cartCatalogTotal]

theorem checkoutLoop_ok (pm : Nat → Option Product) :
    ∀ (cart : List CartLine) (t : Rat) (acc : List OrderItemDraft) (total : Rat)
      (items : List OrderItemDraft),
      checkoutLoop pm cart t acc = .ok (total, items) →
      total = t + cartCatalogTotal pm cart ∧ items = acc ++ cartDrafts pm cart ∧
        ∀ l ∈ cart, ∃ p, pm l.productId = some p ∧ (l.quantity : Int) ≤ p.stock := by
  intro cart
  induction cart with
  | nil =>
    intro t acc total items h
    simp only [checkoutLoop, Except.ok.injEq, Prod.mk.injEq] at h
    refine ⟨by simp [cartCatalogTotal, h.1], by simp [cartDrafts, h.2], by simp⟩
  | cons l rest ih =>
    intro t acc total items h
    simp only [checkoutLoop] at h
    cases hp : pm l.productId with
    | none => rw [hp] at h; exact absurd h (by simp)
    | some p =>
      rw [hp] at h
      dsimp only at h
      by_cases hs : p.stock < (l.quantity : Int)
      · rw [if_pos hs] at h; exact absurd h (by simp)
      · rw [if_neg hs] at h
        obtain ⟨h1, h2, h3⟩ := ih _ _ _ _ h
        refine ⟨?_, ?_, ?_⟩
        · rw [h1, cartCatalogTotal_cons, hp]
          ring
        · rw [h2]
          simp [cartDrafts, hp]
        · intro x hx
          rcases List.mem_cons.mp hx with h4 | h4
          · exact ⟨p, h4 ▸ hp, h4 ▸ le_of_not_lt hs⟩
          · exact h3 x h4

theorem checkoutLoop_resolves (pm : Nat → Option Product) :
    ∀ (cart : List CartLine) (t : Rat) (acc : List OrderItemDraft),
      (∀ l ∈ cart, ∃ p, pm l.productId = some p ∧ (l.quantity : Int) ≤ p.stock) →
      checkoutLoop pm cart t acc =
        .ok (t + cartCatalogTotal pm cart, acc ++ cartDrafts pm cart) := by
  intro cart
  induction cart with
  | nil =>
    intro t acc _
    simp [checkoutLoop, cartCatalogTotal, cartDrafts]
  | cons l rest ih =>
    intro t acc h
    obtain ⟨p, hp, hs⟩ := h l (List.mem_cons_self _ _)
    simp only [checkoutLoop, hp]
    rw [if_neg (not_lt.mpr hs)]
    rw [ih _ _ (fun x hx => h x (List.mem_cons_of_mem _ hx))]
    rw [cartCatalogTotal_cons, hp]
    simp only [cartDrafts, List.map_cons, hp, Except.ok.injEq, Prod.mk.injEq]
    refine ⟨by ring, by simp [List.append_assoc]⟩

theorem cartDrafts_pids (pm : Nat → Option Product) (cart : Cart) :
    (cartDrafts pm cart).map (fun it => it.productId) = cartPids cart := by
  induction cart with
  | nil => rfl
  | cons l rest ih =>
    simp only [cartDrafts, cartPids, List.map_cons] at ih ⊢
    cases hp : pm l.productId with
    | none => simpa [hp] using ih
    | some p => simpa [hp] using ih

theorem mem_cartDrafts {pm : Nat → Option Product} {cart : Cart} {it : OrderItemDraft}
    (h : it ∈ cartDrafts pm cart) :
    ∃ l ∈ cart, it.productId = l.productId ∧ it.quantity = l.quantity := by
  simp only [cartDrafts, List.mem_map] at h
  obtain ⟨l, hl, hEq⟩ := h
  refine ⟨l, hl, ?_⟩
  cases hp : pm l.productId with
  | none => rw [hp] at hEq; rw [← hEq]; exact ⟨rfl, rfl⟩
  | some p => rw [hp] at hEq; rw [← hEq]; exact ⟨rfl, rfl⟩

theorem foldl_decrementStock_nonneg :
    ∀ (items : List OrderItemDraft) (products : Nat → Option Product),
      ((items.map (fun it => it.productId)).Nodup) →
      (∀ it ∈ items, ∃ p, products it.productId = some p ∧ (it.quantity : Int) ≤ p.stock) →
      stocksNonnegF products → stocksNonnegF (items.foldl decrementStock products) := by
  intro items
  induction items with
  | nil => intro products _ _ h; simpa using h
  | cons it rest ih =>
    intro products hnd hcond h0
    obtain ⟨p, hp, hq⟩ := hcond it (List.mem_cons_self _ _)
    simp only [List.map_cons, List.nodup_cons] at hnd
    simp only [List.foldl_cons]
    apply ih
    · exact hnd.2
    · intro it2 hit2
      obtain ⟨p2, hp2, hq2⟩ := hcond it2 (List.mem_cons_of_mem _ hit2)
      refine ⟨p2, ?_, hq2⟩
      have hne : it2.productId ≠ it.productId := by
        intro hEq
        exact hnd.1 (hEq ▸ List.mem_map_of_mem _ hit2)
      simpa [decrementStock, hne] using hp2
    · intro pid q hq2
      by_cases hpid : pid = it.productId
      · subst hpid
        simp only [decrementStock, if_pos rfl, hp, Option.map_some] at hq2
        cases hq2
        simp only []
        omega
      · simp only [decrementStock, if_neg hpid] at hq2
        exact h0 pid q hq2

theorem foldl_decrementStock_isSome :
    ∀ (items : List OrderItemDraft) (products : Nat → Option Product) (pid : Nat),
      (products pid).isSome → ((items.foldl decrementStock products) pid).isSome := by
  intro items
  induction items with
  | nil => intro _ _ h; simpa using h
  | cons it rest ih =>
    intro products pid h
    simp only [List.foldl_cons]
    apply ih
    by_cases hpid : pid = it.productId
    · subst hpid
      simpa [decrementStock, Option.isSome_map] using h
    · simpa [decrementStock, hpid] using h

theorem hexDigit_ne_colon (n : Nat) : hexDigit n ≠ ':' := by
  match n with
  | 0 | 1 | 2 | 3 | 4 | 5 | 6 | 7 | 8 | 9 | 10 | 11 | 12 | 13 | 14 | 15 => decide
  | n + 16 => exact fun h => by simp [hexDigit] at h

theorem hexVal?_hexDigit {d : Nat} (h : d < 16) : hexVal? (hexDigit d) = some d := by
  interval_cases d <;> decide

theorem byteToHex_ne_colon {b : Nat} {c : Char} (h : c ∈ byteToHex b) : c ≠ ':' := by
  simp only [byteToHex, List.mem_cons, List.not_mem_nil, or_false] at h
  rcases h with h | h <;> exact h ▸ hexDigit_ne_colon _

theorem flatMap_byteToHex_ne_colon {l : List Nat} {c : Char}
    (h : c ∈ l.flatMap byteToHex) : c ≠ ':' := by
  rw [List.mem_flatMap] at h
  obtain ⟨b, _, hc⟩ := h
  exact byteToHex_ne_colon hc

theorem parseHexPair_byteToHex {b : Nat} (h : b < 256) :
    parseHexPair (hexDigit (b / 16)) (hexDigit (b % 16)) = b := by
  have h1 : b / 16 < 16 := Nat.div_lt_of_lt_mul (by omega)
  have h2 : b % 16 < 16 := Nat.mod_lt _ (by omega)
  simp only [parseHexPair, hexVal?_hexDigit h1, hexVal?_hexDigit h2]
  omega

theorem parseHexBytes_flatMap {salt : List Nat} (h : ∀ b ∈ salt, b < 256) :
    parseHexBytes (salt.flatMap byteToHex) = salt := by
  induction salt with
  | nil => rfl
  | cons b rest ih =>
    simp only [List.flatMap_cons, byteToHex, List.cons_append, List.nil_append]
    simp only [parseHexBytes]
    rw [parseHexPair_byteToHex (h b (List.mem_cons_self _ _))]
    rw [ih (fun x hx => h x (List.mem_cons_of_mem _ hx))]

theorem length_flatMap_byteToHex (l : List Nat) :
    (l.flatMap byteToHex).length = 2 * l.length := by
  induction l with
  | nil => rfl
  | cons b rest ih =>
    simp only [List.flatMap_cons, List.length_append, ih, byteToHex,
      List.length_cons, List.length_nil]
    omega

theorem splitOnChar_of_no_sep {sep : Char} {l : List Char}
    (h : ∀ c ∈ l, c ≠ sep) : splitOnChar sep l = [l] := by
  induction l with
  | nil => rfl
  | cons c rest ih =>
    have hc : c ≠ sep := h c (List.mem_cons_self _ _)
    simp only [splitOnChar, if_neg hc]
    rw [ih (fun x hx => h x (List.mem_cons_of_mem _ hx))]

theorem splitOnChar_append_sep {sep : Char} {a b : List Char}
    (h : ∀ c ∈ a, c ≠ sep) :
    splitOnChar sep (a ++ sep :: b) = a :: splitOnChar sep b := by
  induction a with
  | nil => simp [splitOnChar]
  | cons c rest ih =>
    have hc : c ≠ sep := h c (List.mem_cons_self _ _)
    simp only [List.cons_append, splitOnChar, if_neg hc, List.append_eq]
    rw [ih (fun x hx => h x (List.mem_cons_of_mem _ hx))]

theorem splitOnChar_hashPassword (kdf : String → List Nat → List Nat)
    (salt : List Nat) (pw : String) :
    splitOnChar ':' (hashPassword kdf salt pw) =
      [salt.flatMap byteToHex, (kdf pw salt).flatMap byteToHex] := by
  unfold hashPassword
  rw [splitOnChar_append_sep (fun c hc => flatMap_byteToHex_ne_colon hc)]
  rw [splitOnChar_of_no_sep (fun c hc => flatMap_byteToHex_ne_colon hc)]

theorem verifyPassword_hashPassword (kdf : String → List Nat → List Nat)
    (salt : List Nat) (pw : String) (hs : salt ≠ [])
    (hb : ∀ b ∈ salt, b < 256) (hk : kdf pw salt ≠ []) :
    verifyPassword kdf pw (hashPassword kdf salt pw) = true := by
  unfold verifyPassword
  rw [splitOnChar_hashPassword]
  have hsalt_len : (salt.flatMap byteToHex).length = 2 * salt.length :=
    length_flatMap_byteToHex _
  have hsalt_pos : 0 < salt.length := List.length_pos.mpr hs
  have hkdf_pos : 0 < (kdf pw salt).length := List.length_pos.mpr hk
  have h1 : (salt.flatMap byteToHex).isEmpty = false := by
    cases hcase : salt.flatMap byteToHex with
    | nil =>
      rw [hcase] at hsalt_len
      simp only [List.length_nil] at hsalt_len
      omega
    | cons _ _ => rfl
  have h2 : ((kdf pw salt).flatMap byteToHex).isEmpty = false := by
    cases hcase : (kdf pw salt).flatMap byteToHex with
    | nil =>
      have hlen2 := length_flatMap_byteToHex (kdf pw salt)
      rw [hcase] at hlen2
      simp only [List.length_nil] at hlen2
      omega
    | cons _ _ => rfl
  simp only [h1, h2, Bool.or_self, Bool.false_or, if_false, Bool.or_false]
  rw [if_neg (by omega : ¬ (salt.flatMap byteToHex).length < 2)]
  rw [parseHexBytes_flatMap hb]
  simp

theorem isNewHashFormat_hashPassword (kdf : String → List Nat → List Nat)
    (salt : List Nat) (pw : String) :
    isNewHashFormat (hashPassword kdf salt pw) = true := by
  unfold isNewHashFormat
  rw [splitOnChar_hashPassword]
  have hmem : (':' : Char) ∈ hashPassword kdf salt pw := by
    unfold hashPassword
    exact List.mem_append_right _ (List.mem_cons_self _ _)
  simp [List.contains_iff_exists_mem_beq]
  exact hmem

theorem step_eq_of_error {s : State} {e : Event} {err : ErrCode}
    (h : applyEvent s e = .error err) : step s e = s := by
  unfold step; rw [h]

theorem step_eq_of_ok {s : State} {e : Event} {s' : State}
    (h : applyEvent s e = .ok s') : step s e = s' := by
  unfold step; rw [h]

theorem findActiveProduct_eq_some {products : Nat → Option Product} {pid : Nat}
    {p : Product} (h : findActiveProduct products pid = some p) :
    products pid = some p ∧ p.isActive = true := by
  unfold findActiveProduct at h
  cases hp : products pid with
  | none => rw [hp] at h; exact absurd h (by simp)
  | some p2 =>
    rw [hp] at h
    dsimp only at h
    by_cases hA : p2.isActive = true
    · rw [if_pos hA] at h
      obtain rfl : p2 = p := by injection h
      exact ⟨rfl, hA⟩
    · rw [if_neg hA] at h
      exact absurd h (by simp)

theorem not_mem_cartPids_of_lineQty?_none {c : Cart} {pid : Nat}
    (h : lineQty? c pid = none) : pid ∉ cartPids c := by
  unfold lineQty? at h
  intro hmem
  obtain ⟨l, hl, hpid⟩ := List.mem_map.mp hmem
  have hfind := List.find?_eq_none.mp (by
    cases hf : List.find? (fun it => it.productId == pid) c with
    | none => rfl
    | some x => rw [hf] at h; exact absurd h (by simp)) l hl
  exact hfind (by simp [hpid])

theorem getCartData_nodup {s : State} (h : cartsNodup s) (sid : String) :
    (cartPids (getCartData s sid)).Nodup := by
  unfold getCartData
  cases hc : s.carts sid with
  | none => simp [cartPids]
  | some c => simpa using h sid c hc

theorem getCartData_ok {s : State} (h : cartsOk s) (sid : String) :
    cartOk (getCartData s sid) := by
  unfold getCartData
  cases hc : s.carts sid with
  | none => exact ⟨by simp [cartPids], by simp⟩
  | some c => simpa using h sid c hc

theorem addItem_cases (s : State) (sid : String) (pid q : Nat) :
    (∃ e, addItem s (some sid) pid q = .error e) ∨
    (∃ q0, lineQty? (getCartData s sid) pid = some q0 ∧
       addItem s (some sid) pid q =
         .ok { s with carts := updateFun s.carts sid (some (setQtyFirst (getCartData s sid) pid (q0 + q))) }) ∨
    (lineQty? (getCartData s sid) pid = none ∧
       addItem s (some sid) pid q =
         .ok { s with carts := updateFun s.carts sid (some (getCartData s sid ++ [⟨pid, q⟩])) }) := by
  unfold addItem
  cases hfp : findActiveProduct s.products pid with
  | none => exact Or.inl ⟨.notFound, rfl⟩
  | some p =>
    cases hex : lineQty? (getCartData s sid) pid with
    | some q0 =>
      by_cases hst : p.stock < (q0 : Int) + (q : Int)
      · exact Or.inl ⟨.outOfStock, by simp [hex, hst]⟩
      · exact Or.inr (Or.inl ⟨q0, rfl, by simp [hex, hst]⟩)
    | none =>
      by_cases hst : ((q : Nat) : Int) > p.stock
      · exact Or.inl ⟨.outOfStock, by simp [hex, hst]⟩
      · exact Or.inr (Or.inr ⟨rfl, by simp [hex, hst]⟩)

theorem updateItem_cases (s : State) (sid : String) (pid q : Nat) :
    (∃ e, updateItem s (some sid) pid q = .error e) ∨
    (q = 0 ∧ updateItem s (some sid) pid q =
       .ok { s with carts := updateFun s.carts sid (some (removeFirst (getCartData s sid) pid)) }) ∨
    (q ≠ 0 ∧ updateItem s (some sid) pid q =
       .ok { s with carts := updateFun s.carts sid (some (setQtyFirst (getCartData s sid) pid q)) }) := by
  unfold updateItem
  by_cases hpid : pid = 0
  · exact Or.inl ⟨.validation, by simp [hpid]⟩
  · by_cases hhl : hasLine (getCartData s sid) pid = true
    · by_cases hq : q = 0
      · exact Or.inr (Or.inl ⟨hq, by simp [hpid, hhl, hq]⟩)
      · cases hp : s.products pid with
        | none => exact Or.inr (Or.inr ⟨hq, by simp [hpid, hhl, hq, hp]⟩)
        | some p =>
          by_cases hst : ((q : Nat) : Int) > p.stock
          · exact Or.inl ⟨.outOfStock, by simp [hpid, hhl, hq, hp, hst]⟩
          · exact Or.inr (Or.inr ⟨hq, by simp [hpid, hhl, hq, hp, hst]⟩)
    · exact Or.inl ⟨.notFound, by simp [hpid, hhl]⟩

theorem removeItem_cases (s : State) (sid : String) (pid : Nat) :
    (∃ e, removeItem s (some sid) pid = .error e) ∨
    (removeItem s (some sid) pid =
       .ok { s with carts := updateFun s.carts sid (some (removeFirst (getCartData s sid) pid)) }) := by
  unfold removeItem
  by_cases hpid : pid = 0
  · exact Or.inl ⟨.validation, by simp [hpid]⟩
  · by_cases hhl : hasLine (getCartData s sid) pid = true
    · exact Or.inr (by simp [hpid, hhl])
    · exact Or.inl ⟨.notFound, by simp [hpid, hhl]⟩

theorem adminUpdateStock_cases (s : State) (pid : Nat) (stock : Int) :
    (∃ e, adminUpdateStock s pid stock = .error e) ∨
    (∃ p, s.products pid = some p ∧ adminUpdateStock s pid stock =
       .ok { s with products := updateFun s.products pid (some { p with stock := stock }) }) := by
  unfold adminUpdateStock
  by_cases hpid : pid = 0
  · exact Or.inl ⟨.validation, by simp [hpid]⟩
  · cases hp : s.products pid with
    | none => exact Or.inl ⟨.notFound, by simp [hpid, hp]⟩
    | some p => exact Or.inr ⟨p, rfl, by simp [hpid, hp]⟩

theorem checkout_ok_cases {s : State} {u : Nat} {sid? : Option String} {card : String}
    {ship : Shipping} {s' : State} (h : checkout s u sid? card ship = .ok s') :
    ∃ sid cart total items, sid? = some sid ∧ s.carts sid = some cart ∧ cart ≠ [] ∧
      checkoutLoop (fun pid => findActiveProduct s.products pid) cart 0 [] =
        .ok (total, items) ∧
      s' = { products := items.foldl decrementStock s.products
             carts := updateFun s.carts sid none
             orders := updateFun s.orders s.nextOrderId
               (some ⟨s.nextOrderId, u, total, "pending",
                      ship.firstName, ship.lastName, ship.address⟩)
             orderItems := s.orderItems ++
               items.map (fun it => ⟨s.nextOrderId, it.productId, it.quantity, it.price⟩)
             nextOrderId := s.nextOrderId + 1 } := by
  unfold checkout at h
  by_cases hluhn : isValidCardNumber card = true
  · rw [if_neg (by simp [hluhn])] at h
    cases sid? with
    | none => exact absurd h (by simp)
    | some sid =>
      dsimp only at h
      cases hc : s.carts sid with
      | none => rw [hc] at h; exact absurd h (by simp)
      | some cart =>
        rw [hc] at h
        dsimp only at h
        by_cases hlen : cart.length = 0
        · rw [if_pos hlen] at h; exact absurd h (by simp)
        · rw [if_neg hlen] at h
          cases hloop : checkoutLoop (fun pid => findActiveProduct s.products pid)
              cart 0 [] with
          | error e => rw [hloop] at h; exact absurd h (by simp)
          | ok res =>
            obtain ⟨total, items⟩ := res
            rw [hloop] at h
            dsimp only at h
            cases h
            refine ⟨sid, cart, total, items, rfl, hc, ?_, hloop, rfl⟩
            intro hnil
            rw [hnil] at hlen
            exact hlen rfl
  · rw [if_pos (by simp [hluhn])] at h
    exact absurd h (by simp)

theorem cartsNodup_updateFun {s s' : State} {sid : String} {v : Option Cart}
    (h : cartsNodup s) (hv : ∀ c, v = some c → (cartPids c).Nodup)
    (hs' : s'.carts = updateFun s.carts sid v) : cartsNodup s' := by
  intro sid2 c2 hc2
  rw [hs'] at hc2
  unfold updateFun at hc2
  by_cases hEq : sid2 = sid
  · rw [if_pos hEq] at hc2; exact hv c2 hc2
  · rw [if_neg hEq] at hc2; exact h sid2 c2 hc2

theorem cartsOk_updateFun {s s' : State} {sid : String} {v : Option Cart}
    (h : cartsOk s) (hv : ∀ c, v = some c → cartOk c)
    (hs' : s'.carts = updateFun s.carts sid v) : cartsOk s' := by
  intro sid2 c2 hc2
  rw [hs'] at hc2
  unfold updateFun at hc2
  by_cases hEq : sid2 = sid
  · rw [if_pos hEq] at hc2; exact hv c2 hc2
  · rw [if_neg hEq] at hc2; exact h sid2 c2 hc2

theorem cartsNodup_of_carts_eq {s s' : State} (h : cartsNodup s)
    (hEq : s'.carts = s.carts) : cartsNodup s' := by
  intro sid c hc; rw [hEq] at hc; exact h sid c hc

theorem cartsOk_of_carts_eq {s s' : State} (h : cartsOk s)
    (hEq : s'.carts = s.carts) : cartsOk s' := by
  intro sid c hc; rw [hEq] at hc; exact h sid c hc

theorem stocksNonneg_of_products_eq {s s' : State} (h : stocksNonneg s)
    (hEq : s'.products = s.products) : stocksNonneg s' := by
  intro pid p hp; rw [hEq] at hp; exact h pid p hp

theorem cartPids_append_line (c : Cart) (pid q : Nat) :
    cartPids (c ++ [(⟨pid, q⟩ : CartLine)]) = cartPids c ++ [pid] := by
  simp [cartPids]

theorem nodup_append_line {c : Cart} {pid : Nat} (q : Nat)
    (h : (cartPids c).Nodup) (hnm : pid ∉ cartPids c) :
    (cartPids (c ++ [(⟨pid, q⟩ : CartLine)])).Nodup := by
  rw [cartPids_append_line]
  simp [List.nodup_append, h, hnm]

theorem step_preserves_cartsNodup (s : State) (e : Event) (h : cartsNodup s) :
    cartsNodup (step s e) := by
  cases e with
  | add sid pid q =>
    rcases addItem_cases s sid pid q with ⟨err, he⟩ | ⟨q0, hq0, he⟩ | ⟨hq0, he⟩
    · rw [step_eq_of_error (show applyEvent s (.add sid pid q) = .error err from he)]
      exact h
    · rw [step_eq_of_ok (show applyEvent s (.add sid pid q) = _ from he)]
      refine cartsNodup_updateFun h (fun c hc => ?_) rfl
      cases hc
      rw [cartPids_setQtyFirst]
      exact getCartData_nodup h sid
    · rw [step_eq_of_ok (show applyEvent s (.add sid pid q) = _ from he)]
      refine cartsNodup_updateFun h (fun c hc => ?_) rfl
      cases hc
      exact nodup_append_line q (getCartData_nodup h sid)
        (not_mem_cartPids_of_lineQty?_none hq0)
  | update sid pid q =>
    rcases updateItem_cases s sid pid q with ⟨err, he⟩ | ⟨hq, he⟩ | ⟨hq, he⟩
    · rw [step_eq_of_error (show applyEvent s (.update sid pid q) = .error err from he)]
      exact h
    · rw [step_eq_of_ok (show applyEvent s (.update sid pid q) = _ from he)]
      refine cartsNodup_updateFun h (fun c hc => ?_) rfl
      cases hc
      exact ((removeFirst_sublist _ _).map _).nodup (getCartData_nodup h sid)
    · rw [step_eq_of_ok (show applyEvent s (.update sid pid q) = _ from he)]
      refine cartsNodup_updateFun h (fun c hc => ?_) rfl
      cases hc
      rw [cartPids_setQtyFirst]
      exact getCartData_nodup h sid
  | remove sid pid =>
    rcases removeItem_cases s sid pid with ⟨err, he⟩ | he
    · rw [step_eq_of_error (show applyEvent s (.remove sid pid) = .error err from he)]
      exact h
    · rw [step_eq_of_ok (show applyEvent s (.remove sid pid) = _ from he)]
      refine cartsNodup_updateFun h (fun c hc => ?_) rfl
      cases hc
      exact ((removeFirst_sublist _ _).map _).nodup (getCartData_nodup h sid)
  | clear sid =>
    rw [step_eq_of_ok (show applyEvent s (.clear sid) = _ from rfl)]
    exact cartsNodup_updateFun h (fun c hc => by cases hc) rfl
  | adminStock pid st =>
    rcases adminUpdateStock_cases s pid st with ⟨err, he⟩ | ⟨p, hp, he⟩
    · rw [step_eq_of_error (show applyEvent s (.adminStock pid st) = .error err from he)]
      exact h
    · rw [step_eq_of_ok (show applyEvent s (.adminStock pid st) = _ from he)]
      exact cartsNodup_of_carts_eq h rfl
  | checkout u sid? card ship =>
    cases hres : checkout s u sid? card ship with
    | error err =>
      rw [step_eq_of_error (show applyEvent s (.checkout u sid? card ship) = .error err from hres)]
      exact h
    | ok s2 =>
      rw [step_eq_of_ok (show applyEvent s (.checkout u sid? card ship) = _ from hres)]
      obtain ⟨sid, cart, total, items, hsid, hc, hne, hloop, hs2⟩ := checkout_ok_cases hres
      subst hs2
      exact cartsNodup_updateFun h (fun c hc => by cases hc) rfl

theorem cartOk_setQtyFirst {c : Cart} {pid q : Nat} (h : cartOk c) (hq : 1 ≤ q) :
    cartOk (setQtyFirst c pid q) := by
  refine ⟨by rw [cartPids_setQtyFirst]; exact h.1, ?_⟩
  intro l hl
  rcases mem_setQtyFirst hl with h2 | h2
  · exact h.2 l h2
  · rw [h2]; exact hq

theorem cartOk_removeFirst {c : Cart} {pid : Nat} (h : cartOk c) :
    cartOk (removeFirst c pid) := by
  refine ⟨((removeFirst_sublist _ _).map _).nodup h.1, ?_⟩
  intro l hl
  exact h.2 l ((removeFirst_sublist _ _).mem hl)

theorem step_preserves_cartsOk (s : State) (e : Event) (hv : eventValid e)
    (h : cartsOk s) : cartsOk (step s e) := by
  cases e with
  | add sid pid q =>
    obtain ⟨-, hq1, -⟩ := hv
    rcases addItem_cases s sid pid q with ⟨err, he⟩ | ⟨q0, hq0, he⟩ | ⟨hq0, he⟩
    · rw [step_eq_of_error (show applyEvent s (.add sid pid q) = .error err from he)]
      exact h
    · rw [step_eq_of_ok (show applyEvent s (.add sid pid q) = _ from he)]
      refine cartsOk_updateFun h (fun c hc => ?_) rfl
      cases hc
      exact cartOk_setQtyFirst (getCartData_ok h sid) (by omega)
    · rw [step_eq_of_ok (show applyEvent s (.add sid pid q) = _ from he)]
      refine cartsOk_updateFun h (fun c hc => ?_) rfl
      cases hc
      refine ⟨nodup_append_line q (getCartData_ok h sid).1
        (not_mem_cartPids_of_lineQty?_none hq0), ?_⟩
      intro l hl
      rcases List.mem_append.mp hl with h2 | h2
      · exact (getCartData_ok h sid).2 l h2
      · rw [List.mem_singleton.mp h2]; exact hq1
  | update sid pid q =>
    rcases updateItem_cases s sid pid q with ⟨err, he⟩ | ⟨hq, he⟩ | ⟨hq, he⟩
    · rw [step_eq_of_error (show applyEvent s (.update sid pid q) = .error err from he)]
      exact h
    · rw [step_eq_of_ok (show applyEvent s (.update sid pid q) = _ from he)]
      refine cartsOk_updateFun h (fun c hc => ?_) rfl
      cases hc
      exact cartOk_removeFirst (getCartData_ok h sid)
    · rw [step_eq_of_ok (show applyEvent s (.update sid pid q) = _ from he)]
      refine cartsOk_updateFun h (fun c hc => ?_) rfl
      cases hc
      exact cartOk_setQtyFirst (getCartData_ok h sid) (by omega)
  | remove sid pid =>
    rcases removeItem_cases s sid pid with ⟨err, he⟩ | he
    · rw [step_eq_of_error (show applyEvent s (.remove sid pid) = .error err from he)]
      exact h
    · rw [step_eq_of_ok (show applyEvent s (.remove sid pid) = _ from he)]
      refine cartsOk_updateFun h (fun c hc => ?_) rfl
      cases hc
      exact cartOk_removeFirst (getCartData_ok h sid)
  | clear sid =>
    rw [step_eq_of_ok (show applyEvent s (.clear sid) = _ from rfl)]
    exact cartsOk_updateFun h (fun c hc => by cases hc) rfl
  | adminStock pid st =>
    rcases adminUpdateStock_cases s pid st with ⟨err, he⟩ | ⟨p, hp, he⟩
    · rw [step_eq_of_error (show applyEvent s (.adminStock pid st) = .error err from he)]
      exact h
    · rw [step_eq_of_ok (show applyEvent s (.adminStock pid st) = _ from he)]
      exact cartsOk_of_carts_eq h rfl
  | checkout u sid? card ship =>
    cases hres : checkout s u sid? card ship with
    | error err =>
      rw [step_eq_of_error
        (show applyEvent s (.checkout u sid? card ship) = .error err from hres)]
      exact h
    | ok s2 =>
      rw [step_eq_of_ok (show applyEvent s (.checkout u sid? card ship) = _ from hres)]
      obtain ⟨sid, cart, total, items, hsid, hc, hne, hloop, hs2⟩ := checkout_ok_cases hres
      subst hs2
      exact cartsOk_updateFun h (fun c hc => by cases hc) rfl

theorem step_preserves_stocksNonneg (s : State) (e : Event) (hv : eventValid e)
    (h1 : stocksNonneg s) (h2 : cartsNodup s) : stocksNonneg (step s e) := by
  cases e with
  | add sid pid q =>
    rcases addItem_cases s sid pid q with ⟨err, he⟩ | ⟨q0, hq0, he⟩ | ⟨hq0, he⟩
    · rw [step_eq_of_error (show applyEvent s (.add sid pid q) = .error err from he)]
      exact h1
    · rw [step_eq_of_ok (show applyEvent s (.add sid pid q) = _ from he)]
      exact stocksNonneg_of_products_eq h1 rfl
    · rw [step_eq_of_ok (show applyEvent s (.add sid pid q) = _ from he)]
      exact stocksNonneg_of_products_eq h1 rfl
  | update sid pid q =>
    rcases updateItem_cases s sid pid q with ⟨err, he⟩ | ⟨hq, he⟩ | ⟨hq, he⟩
    · rw [step_eq_of_error (show applyEvent s (.update sid pid q) = .error err from he)]
      exact h1
    · rw [step_eq_of_ok (show applyEvent s (.update sid pid q) = _ from he)]
      exact stocksNonneg_of_products_eq h1 rfl
    · rw [step_eq_of_ok (show applyEvent s (.update sid pid q) = _ from he)]
      exact stocksNonneg_of_products_eq h1 rfl
  | remove sid pid =>
    rcases removeItem_cases s sid pid with ⟨err, he⟩ | he
    · rw [step_eq_of_error (show applyEvent s (.remove sid pid) = .error err from he)]
      exact h1
    · rw [step_eq_of_ok (show applyEvent s (.remove sid pid) = _ from he)]
      exact stocksNonneg_of_products_eq h1 rfl
  | clear sid =>
    rw [step_eq_of_ok (show applyEvent s (.clear sid) = _ from rfl)]
    exact stocksNonneg_of_products_eq h1 rfl
  | adminStock pid st =>
    rcases adminUpdateStock_cases s pid st with ⟨err, he⟩ | ⟨p, hp, he⟩
    · rw [step_eq_of_error (show applyEvent s (.adminStock pid st) = .error err from he)]
      exact h1
    · rw [step_eq_of_ok (show applyEvent s (.adminStock pid st) = _ from he)]
      intro pid2 p2 hp2
      unfold updateFun at hp2
      dsimp only at hp2
      by_cases hEq : pid2 = pid
      · rw [if_pos hEq] at hp2
        cases hp2
        exact hv
      · rw [if_neg hEq] at hp2
        exact h1 pid2 p2 hp2
  | checkout u sid? card ship =>
    cases hres : checkout s u sid? card ship with
    | error err =>
      rw [step_eq_of_error
        (show applyEvent s (.checkout u sid? card ship) = .error err from hres)]
      exact h1
    | ok s2 =>
      rw [step_eq_of_ok (show applyEvent s (.checkout u sid? card ship) = _ from hres)]
      obtain ⟨sid, cart, total, items, hsid, hc, hne, hloop, hs2⟩ := checkout_ok_cases hres
      subst hs2
      obtain ⟨htot, hitems, hres2⟩ := checkoutLoop_ok _ cart 0 [] total items hloop
      have hnd : (items.map (fun it => it.productId)).Nodup := by
        rw [hitems, List.nil_append, cartDrafts_pids]
        exact h2 sid cart hc
      have hcond : ∀ it ∈ items,
          ∃ p, s.products it.productId = some p ∧ (it.quantity : Int) ≤ p.stock := by
        intro it hit
        rw [hitems, List.nil_append] at hit
        obtain ⟨l, hl, hpid, hqty⟩ := mem_cartDrafts hit
        obtain ⟨p, hp, hstock⟩ := hres2 l hl
        exact ⟨p, hpid ▸ (findActiveProduct_eq_some hp).1, hqty ▸ hstock⟩
      exact foldl_decrementStock_nonneg items s.products hnd hcond h1

theorem runEvents_preserves (s : State) (es : List Event)
    (hv : ∀ e ∈ es, eventValid e) (h1 : stocksNonneg s) (h2 : cartsNodup s) :
    stocksNonneg (runEvents s es) ∧ cartsNodup (runEvents s es) := by
  induction es generalizing s with
  | nil => exact ⟨h1, h2⟩
  | cons e rest ih =>
    have hve := hv e (List.mem_cons_self _ _)
    exact ih (step s e) (fun x hx => hv x (List.mem_cons_of_mem _ hx))
      (step_preserves_stocksNonneg s e hve h1 h2)
      (step_preserves_cartsNodup s e h2)

theorem runEvents_cartsOk (s : State) (es : List Event)
    (hv : ∀ e ∈ es, eventValid e) (h : cartsOk s) : cartsOk (runEvents s es) := by
  induction es generalizing s with
  | nil => exact h
  | cons e rest ih =>
    exact ih (step s e) (fun x hx => hv x (List.mem_cons_of_mem _ hx))
      (step_preserves_cartsOk s e (hv e (List.mem_cons_self _ _)) h)

/-- C5: a checkout request whose card number fails the mod-10 (Luhn) checksum
fails with a validation error before any stock or cart mutation: the handler
returns `VALIDATION_ERROR` and the whole store (orders, order items, product
stocks, cart records) is exactly the pre-request state. -/
theorem c5_invalid_card_rejected (s : State) (u : Nat) (sid? : Option String)
    (card : String) (ship : Shipping) (h : isValidCardNumber card = false) :
    checkout s u sid? card ship = .error .validation ∧
      step s (.checkout u sid? card ship) = s := by
  have hc : checkout s u sid? card ship = .error .validation := by
    unfold checkout
    rw [if_pos (by simp [h])]
  exact ⟨hc, step_eq_of_error hc⟩

/-- C5 witness: the spec's own example card number `1234567890123456` fails
the checksum and the concrete checkout is rejected with the store unchanged. -/
theorem c5_witness :
    isValidCardNumber "1234567890123456" = false ∧
    (checkout exState 7 (some "s1") "1234567890123456" exShip = .error .validation ∧
      step exState (.checkout 7 (some "s1") "1234567890123456" exShip) = exState) :=
  ⟨by decide, c5_invalid_card_rejected exState 7 (some "s1") "1234567890123456" exShip
    (by decide)⟩

/-- C6 counterexample: on an empty cart the claim "the operation fails with
CART_EMPTY" is falsified when the card number also fails the Luhn check —
the handler validates the card first and returns `VALIDATION_ERROR`, not
`CART_EMPTY` (state `emptyState` has no cart record for session "s1"). -/
theorem c6_counterexample :
    emptyState.carts "s1" = none ∧
    checkout emptyState 7 (some "s1") "1234567890123456" exShip = .error .validation ∧
    checkout emptyState 7 (some "s1") "1234567890123456" exShip ≠ .error .cartEmpty := by
  have hval : checkout emptyState 7 (some "s1") "1234567890123456" exShip =
      .error .validation := rfl
  refine ⟨rfl, hval, ?_⟩
  rw [hval]
  simp

/-- C6 (amended): a checkout whose card number passes the Luhn checksum, on an
empty cart (no stored record, or a record with zero lines), fails with
`CART_EMPTY` and creates no order: the store is exactly the pre-request
state. -/
theorem c6_empty_cart_checkout (s : State) (u : Nat) (sid : String) (card : String)
    (ship : Shipping) (hluhn : isValidCardNumber card = true)
    (hempty : s.carts sid = none ∨ s.carts sid = some []) :
    checkout s u (some sid) card ship = .error .cartEmpty ∧
      step s (.checkout u (some sid) card ship) = s := by
  have hc : checkout s u (some sid) card ship = .error .cartEmpty := by
    unfold checkout
    rw [if_neg (by simp [hluhn])]
    dsimp only
    rcases hempty with he | he
    · rw [he]
    · rw [he]; rfl
  exact ⟨hc, step_eq_of_error hc⟩

/-- C6 witness: a Luhn-valid card on a session with no cart record is
rejected with `CART_EMPTY` and the store is unchanged. -/
theorem c6_witness :
    isValidCardNumber "4111111111111111" = true ∧
    (checkout emptyState 7 (some "s1") "4111111111111111" exShip = .error .cartEmpty ∧
      step emptyState (.checkout 7 (some "s1") "4111111111111111" exShip) = emptyState) :=
  ⟨by decide, c6_empty_cart_checkout emptyState 7 "s1" "4111111111111111" exShip
    (by decide) (Or.inl rfl)⟩

/-- C10 counterexample: a checkout with no `X-Session-ID` header does not
always fail with `CART_EMPTY`: when the card number also fails the Luhn
check, the handler returns `VALIDATION_ERROR` first. -/
theorem c10_counterexample :
    checkout emptyState 7 none "1234567890123456" exShip = .error .validation ∧
    checkout emptyState 7 none "1234567890123456" exShip ≠ .error .cartEmpty := by
  have hval : checkout emptyState 7 none "1234567890123456" exShip =
      .error .validation := rfl
  refine ⟨hval, ?_⟩
  rw [hval]
  simp

/-- C10 (amended): a checkout request carrying no `X-Session-ID` header whose
card number passes the Luhn check fails with `CART_EMPTY` (the missing
session is treated like an empty cart), whereas every cart endpoint
(`GET /cart`, `POST /cart/items`, `PATCH` and `DELETE /cart/items/:productId`,
`DELETE /cart`) fails with a `VALIDATION_ERROR` when the header is absent. -/
theorem c10_missing_session_header (s : State) (u : Nat) (card : String)
    (ship : Shipping) (pid q : Nat) (hluhn : isValidCardNumber card = true) :
    checkout s u none card ship = .error .cartEmpty ∧
    readCart s none = .error .validation ∧
    addItem s none pid q = .error .validation ∧
    updateItem s none pid q = .error .validation ∧
    removeItem s none pid = .error .validation ∧
    clearCart s none = .error .validation := by
  refine ⟨?_, rfl, rfl, rfl, rfl, rfl⟩
  unfold checkout
  rw [if_neg (by simp [hluhn])]

/-- C10 witness: with a Luhn-valid card and no session header the order
endpoint answers `CART_EMPTY` while all cart endpoints answer
`VALIDATION_ERROR`. -/
theorem c10_witness :
    isValidCardNumber "4111111111111111" = true ∧
    (checkout exState 7 none "4111111111111111" exShip = .error .cartEmpty ∧
     readCart exState none = .error .validation ∧
     addItem exState none 1 2 = .error .validation ∧
     updateItem exState none 1 2 = .error .validation ∧
     removeItem exState none 1 = .error .validation ∧
     clearCart exState none = .error .validation) :=
  ⟨by decide, c10_missing_session_header exState 7 "4111111111111111" exShip 1 2 (by decide)⟩

/-- C4: an add-to-cart whose prospective quantity (existing line quantity, 0
when absent, plus the requested quantity) exceeds the product's current stock
fails with `OUT_OF_STOCK` and the whole store, in particular the stored cart
record, is unchanged. -/
theorem c4_add_overstock_rejected (s : State) (sid : String) (pid q : Nat) (p : Product)
    (hp : findActiveProduct s.products pid = some p)
    (hover : p.stock < ((lineQty? (getCartData s sid) pid).getD 0 : Int) + (q : Int)) :
    addItem s (some sid) pid q = .error .outOfStock ∧ step s (.add sid pid q) = s := by
  have hc : addItem s (some sid) pid q = .error .outOfStock := by
    unfold addItem
    rw [hp]
    dsimp only
    cases hex : lineQty? (getCartData s sid) pid with
    | some q0 =>
      rw [hex] at hover
      simp only [Option.getD_some] at hover
      simp [hex, hover]
    | none =>
      rw [hex] at hover
      simp only [Option.getD_none] at hover
      have hover2 : p.stock < ((q : Nat) : Int) := by omega
      simp [hex, hover2]
  exact ⟨hc, step_eq_of_error (show applyEvent s (.add sid pid q) = _ from hc)⟩

/-- C4 witness: product stock 5, session "s2" has no cart record (an empty
cart), adding quantity 6 errors with `OUT_OF_STOCK` and the store, hence the
cart, is still unchanged. -/
theorem c4_witness :
    findActiveProduct exState.products 1 = some exProduct ∧
    exProduct.stock < ((lineQty? (getCartData exState "s2") 1).getD 0 : Int) + (6 : Int) ∧
    (addItem exState (some "s2") 1 6 = .error .outOfStock ∧
      step exState (.add "s2" 1 6) = exState) :=
  ⟨by decide, by decide,
    c4_add_overstock_rejected exState "s2" 1 6 exProduct (by decide) (by decide)⟩

theorem getCartData_updateFun_self (s : State) (sid : String) (c : Cart) :
    getCartData { s with carts := updateFun s.carts sid (some c) } sid = c := by
  simp [getCartData, updateFun]

/-- C3: for a cart update (PATCH) with positive product id whose product row
resolves: a missing line fails `NOT_FOUND`; a positive requested quantity
exceeding current stock fails `OUT_OF_STOCK`; an in-stock positive quantity
replaces the line's quantity (other lines untouched); quantity 0 removes the
line (other lines untouched). -/
theorem c3_update_cart_item_spec (s : State) (sid : String) (pid q : Nat) (p : Product)
    (hpid : pid ≠ 0)
    (hp : s.products pid = some p)
    (hnd : (cartPids (getCartData s sid)).Nodup) :
    (hasLine (getCartData s sid) pid = false →
      updateItem s (some sid) pid q = .error .notFound) ∧
    (hasLine (getCartData s sid) pid = true → q ≠ 0 → p.stock < (q : Int) →
      updateItem s (some sid) pid q = .error .outOfStock) ∧
    (hasLine (getCartData s sid) pid = true → q ≠ 0 → (q : Int) ≤ p.stock →
      ∃ s', updateItem s (some sid) pid q = .ok s' ∧
        lineQty? (getCartData s' sid) pid = some q ∧
        ∀ pid2, pid2 ≠ pid →
          lineQty? (getCartData s' sid) pid2 = lineQty? (getCartData s sid) pid2) ∧
    (hasLine (getCartData s sid) pid = true → q = 0 →
      ∃ s', updateItem s (some sid) pid q = .ok s' ∧
        lineQty? (getCartData s' sid) pid = none ∧
        ∀ pid2, pid2 ≠ pid →
          lineQty? (getCartData s' sid) pid2 = lineQty? (getCartData s sid) pid2) := by
  refine ⟨?_, ?_, ?_, ?_⟩
  · intro hl
    unfold updateItem
    simp [hpid, hl]
  · intro hl hq hst
    unfold updateItem
    simp [hpid, hl, hq, hp, hst]
  · intro hl hq hst
    refine ⟨{ s with carts := updateFun s.carts sid (some (setQtyFirst (getCartData s sid) pid q)) }, ?_, ?_, ?_⟩
    · unfold updateItem
      simp [hpid, hl, hq, hp, not_lt.mpr hst]
    · rw [getCartData_updateFun_self]
      exact lineQty?_setQtyFirst_self q hl
    · intro pid2 hpid2
      rw [getCartData_updateFun_self]
      exact lineQty?_setQtyFirst_other hpid2
  · intro hl hq
    refine ⟨{ s with carts := updateFun s.carts sid (some (removeFirst (getCartData s sid) pid)) }, ?_, ?_, ?_⟩
    · unfold updateItem
      simp [hpid, hl, hq]
    · rw [getCartData_updateFun_self]
      exact lineQty?_removeFirst_self hnd
    · intro pid2 hpid2
      rw [getCartData_updateFun_self]
      exact lineQty?_removeFirst_other hpid2

/-- C3 witness: on the sample store (line quantity 2, stock 5) updating the
line of product 1 to quantity 3 succeeds, stores quantity 3 and leaves every
other product's line untouched. -/
theorem c3_witness :
    ∃ s', updateItem exState (some "s1") 1 3 = .ok s' ∧
      lineQty? (getCartData s' "s1") 1 = some 3 ∧
      ∀ pid2, pid2 ≠ 1 →
        lineQty? (getCartData s' "s1") pid2 = lineQty? (getCartData exState "s1") pid2 :=
  (c3_update_cart_item_spec exState "s1" 1 3 exProduct (by decide) (by decide)
    (by decide)).2.2.1 (by decide) (by decide) (by decide)

/-- C1 counterexample: a checkout on a non-empty, fully in-stock cart does not
always persist an order — when the card number fails the Luhn checksum the
request is rejected with `VALIDATION_ERROR` and nothing is persisted
(`exState` holds a cart with one line of two units of an active product with
stock 5). -/
theorem c1_counterexample :
    exState.carts "s1" = some [⟨1, 2⟩] ∧
    (∀ l ∈ ([⟨1, 2⟩] : Cart), ∃ p, findActiveProduct exState.products l.productId = some p ∧
      (l.quantity : Int) ≤ p.stock) ∧
    checkout exState 7 (some "s1") "1234567890123456" exShip = .error .validation ∧
    ∀ s', checkout exState 7 (some "s1") "1234567890123456" exShip ≠ .ok s' := by
  have hval : checkout exState 7 (some "s1") "1234567890123456" exShip =
      .error .validation := rfl
  refine ⟨rfl, ?_, hval, ?_⟩
  · intro l hl
    rw [List.mem_singleton] at hl
    subst hl
    exact ⟨exProduct, by decide, by decide⟩
  · intro s' h
    rw [hval] at h
    exact absurd h (by simp)

/-- C1 (amended): a checkout whose card passes the Luhn check, on the
session's non-empty cart in which every line resolves to an active product
with stock at least the line quantity, succeeds and persists an order with
status "pending" whose `totalAmount` is the server-side sum
Σ (catalog unit price at read time × quantity) over the cart lines (the
request body carries no amount field at all), and deletes the session's cart
record so that a subsequent `GET /cart` answers the empty cart. -/
theorem c1_checkout_total_and_clear (s : State) (userId : Nat) (sid : String)
    (card : String) (ship : Shipping) (cart : Cart)
    (hluhn : isValidCardNumber card = true)
    (hcart : s.carts sid = some cart)
    (hne : cart ≠ [])
    (hres : ∀ l ∈ cart, ∃ p, findActiveProduct s.products l.productId = some p ∧
      (l.quantity : Int) ≤ p.stock) :
    ∃ s', checkout s userId (some sid) card ship = .ok s' ∧
      s'.orders s.nextOrderId = some
        ⟨s.nextOrderId, userId,
         cartCatalogTotal (fun pid => findActiveProduct s.products pid) cart,
         "pending", ship.firstName, ship.lastName, ship.address⟩ ∧
      readCart s' (some sid) = .ok ⟨[], 0, 0⟩ := by
  have hloop := checkoutLoop_resolves (fun pid => findActiveProduct s.products pid)
    cart 0 [] hres
  rw [zero_add, List.nil_append] at hloop
  refine ⟨{ products := (cartDrafts (fun pid => findActiveProduct s.products pid) cart).foldl decrementStock s.products, carts := updateFun s.carts sid none, orders := updateFun s.orders s.nextOrderId (some ⟨s.nextOrderId, userId, cartCatalogTotal (fun pid => findActiveProduct s.products pid) cart, "pending", ship.firstName, ship.lastName, ship.address⟩), orderItems := s.orderItems ++ (cartDrafts (fun pid => findActiveProduct s.products pid) cart).map (fun it => ⟨s.nextOrderId, it.productId, it.quantity, it.price⟩), nextOrderId := s.nextOrderId + 1 }, ?_, ?_, ?_⟩
  · unfold checkout
    rw [if_neg (by simp [hluhn])]
    dsimp only
    rw [hcart]
    dsimp only
    rw [if_neg (by simpa [List.length_eq_zero] using hne)]
    rw [hloop]
  · simp [updateFun]
  · simp [readCart, getCartData, updateFun]

/-- C1 witness: on the sample store (price 10, stock 5, cart line of 2 units)
a Luhn-valid card checks out to an order with total 20 and the cart reads
back empty. -/
theorem c1_witness :
    ∃ s', checkout exState 7 (some "s1") "4111111111111111" exShip = .ok s' ∧
      s'.orders exState.nextOrderId = some
        ⟨exState.nextOrderId, 7,
         cartCatalogTotal (fun pid => findActiveProduct exState.products pid) [⟨1, 2⟩],
         "pending", exShip.firstName, exShip.lastName, exShip.address⟩ ∧
      readCart s' (some "s1") = .ok ⟨[], 0, 0⟩ :=
  c1_checkout_total_and_clear exState 7 "s1" "4111111111111111" exShip [⟨1, 2⟩]
    (by decide) (by decide) (by decide)
    (by
      intro l hl
      rw [List.mem_singleton] at hl
      subst hl
      exact ⟨exProduct, by decide, by decide⟩)

/-- C2 counterexample: the claim quantifies over every starting state with
non-negative stocks; from `dupCartState` — stock 5 and a cart record holding
two lines of five units of the same product — a single valid checkout drives
the stock to -5, because each line is validated against the same pre-write
stock snapshot and both decrements are applied. -/
theorem c2_counterexample :
    stocksNonneg dupCartState ∧ (∀ e ∈ dupCartEvents, eventValid e) ∧
      ¬ stocksNonneg (runEvents dupCartState dupCartEvents) := by
  refine ⟨?_, ?_, ?_⟩
  · intro pid p hp
    have hp2 : (if pid = 1 then some (⟨"Gadget", 1, 5, true⟩ : Product) else none) =
        some p := hp
    by_cases h1 : pid = 1
    · rw [if_pos h1] at hp2
      cases hp2
      decide
    · rw [if_neg h1] at hp2
      exact absurd hp2 (by simp)
  · intro e he
    simp only [dupCartEvents, List.mem_singleton] at he
    subst he
    trivial
  · intro hcontra
    have hp : (runEvents dupCartState dupCartEvents).products 1 =
        some ⟨"Gadget", 1, -5, true⟩ := by decide
    have h0 := hcontra 1 _ hp
    exact absurd h0 (by decide)

/-- C2 (amended): from any state whose stocks are all non-negative and whose
cart records hold at most one line per product, any single-threaded sequence
of schema-valid cart mutations, admin stock updates and checkouts leaves
every product's stock non-negative. -/
theorem c2_stock_nonneg_invariant (s : State) (es : List Event)
    (hv : ∀ e ∈ es, eventValid e) (h1 : stocksNonneg s) (h2 : cartsNodup s) :
    stocksNonneg (runEvents s es) :=
  (runEvents_preserves s es hv h1 h2).1

/-- C2 witness: the mixed add / update / admin-restock / checkout sequence on
the sample store keeps all stocks non-negative. -/
theorem c2_witness : stocksNonneg (runEvents exState mixedEvents) := by
  refine c2_stock_nonneg_invariant exState mixedEvents ?_ ?_ ?_
  · intro e he
    simp only [mixedEvents, List.mem_cons, List.not_mem_nil, or_false] at he
    rcases he with rfl | rfl | rfl | rfl
    · exact ⟨by decide, by decide, by decide⟩
    · exact (by decide : (5 : Nat) ≤ 99)
    · exact (by decide : (0 : Int) ≤ 7)
    · trivial
  · intro pid p hp
    have hp2 : (if pid = 1 then some exProduct else none) = some p := hp
    by_cases h1 : pid = 1
    · rw [if_pos h1] at hp2
      cases hp2
      decide
    · rw [if_neg h1] at hp2
      exact absurd hp2 (by simp)
  · intro sid c hc
    have hc2 : (if sid = "s1" then some ([⟨1, 2⟩] : Cart) else none) = some c := hc
    by_cases h1 : sid = "s1"
    · rw [if_pos h1] at hc2
      cases hc2
      decide
    · rw [if_neg h1] at hc2
      exact absurd hc2 (by simp)

/-- C7: starting from a store with no cart records, after any schema-valid
sequence of API operations every stored cart record has at most one line per
productId and every line quantity is at least 1. -/
theorem c7_cart_record_invariant (s : State) (es : List Event)
    (hv : ∀ e ∈ es, eventValid e) (hinit : ∀ sid, s.carts sid = none) :
    ∀ sid c, (runEvents s es).carts sid = some c →
      (cartPids c).Nodup ∧ ∀ l ∈ c, 1 ≤ l.quantity :=
  runEvents_cartsOk s es hv (fun sid c hc => absurd hc (by simp [hinit sid]))

/-- C7 witness: adding two units, updating the line to five and restocking,
starting from the cartless sample catalog, leaves the session's stored cart
record at one line of quantity 5 satisfying the invariant. -/
theorem c7_witness :
    (runEvents noCartState c7Events).carts "s1" = some [⟨1, 5⟩] ∧
    ((cartPids [(⟨1, 5⟩ : CartLine)]).Nodup ∧ ∀ l ∈ ([⟨1, 5⟩] : Cart), 1 ≤ l.quantity) :=
  ⟨by decide, c7_cart_record_invariant noCartState c7Events
    (by
      intro e he
      simp only [c7Events, List.mem_cons, List.not_mem_nil, or_false] at he
      rcases he with rfl | rfl | rfl
      · exact ⟨by decide, by decide, by decide⟩
      · exact (by decide : (5 : Nat) ≤ 99)
      · exact (by decide : (0 : Int) ≤ 7))
    (fun _ => rfl) "s1" [⟨1, 5⟩] (by decide)⟩

/-- C8 counterexample: the seeded legacy credentials include the locked
account (`locked_user` is listed in the login handler's legacy test-password
table); a login for it with the matching seeded password does not succeed —
the locked-account check precedes credential verification and answers
`ACCOUNT_LOCKED`. -/
theorem c8_counterexample :
    isNewHashFormat lockedUser.passwordHash = false ∧
    testPasswords lockedUser.username = some "locked123" ∧
    login zeroKdf zeroSalt (some lockedUser) "locked_user" "locked123" = .accountLocked ∧
    ∀ u2, login zeroKdf zeroSalt (some lockedUser) "locked_user" "locked123" ≠
      .success u2 := by
  refine ⟨by decide, by decide, rfl, ?_⟩
  intro u2 h
  rw [show login zeroKdf zeroSalt (some lockedUser) "locked_user" "locked123" =
    .accountLocked from rfl] at h
  exact absurd h (by simp)

/-- C8 (amended): for every seeded legacy-format credential of a non-locked
account, a login with the matching seeded test password succeeds and rewrites
the stored credential to the salted-hash format (salt and derived key joined
by a colon), so `isNewHashFormat` holds afterwards; a second login with the
same password succeeds through the PBKDF2 verification path, i.e.
`verifyPassword` of that password against the `hashPassword` output is true. -/
theorem c8_legacy_login_migrates (kdf : String → List Nat → List Nat) (salt : List Nat)
    (u : UserRow) (password : String)
    (hleg : isNewHashFormat u.passwordHash = false)
    (hlock : u.userType ≠ "locked")
    (htest : testPasswords u.username = some password)
    (hsalt : salt ≠ []) (hbytes : ∀ b ∈ salt, b < 256)
    (hkdf : kdf password salt ≠ []) :
    login kdf salt (some u) u.username password =
      .success { u with passwordHash := hashPassword kdf salt password } ∧
    isNewHashFormat (hashPassword kdf salt password) = true ∧
    verifyPassword kdf password (hashPassword kdf salt password) = true ∧
    ∀ salt2, login kdf salt2
        (some { u with passwordHash := hashPassword kdf salt password }) u.username
        password =
      .success { u with passwordHash := hashPassword kdf salt password } := by
  have hfmt := isNewHashFormat_hashPassword kdf salt password
  have hver := verifyPassword_hashPassword kdf salt password hsalt hbytes hkdf
  refine ⟨?_, hfmt, hver, ?_⟩
  · unfold login
    dsimp only
    rw [if_neg hlock]
    simp [hleg, htest]
  · intro salt2
    unfold login
    dsimp only
    rw [if_neg hlock]
    simp [hfmt, hver]

/-- C8 witness: the seeded non-locked legacy user `standard_user` logs in
with `standard123`, the stored credential is rewritten to hash format, and a
second login succeeds through the PBKDF2 path. -/
theorem c8_witness :
    login zeroKdf zeroSalt (some stdUser) "standard_user" "standard123" =
      .success { stdUser with passwordHash := hashPassword zeroKdf zeroSalt "standard123" } ∧
    isNewHashFormat (hashPassword zeroKdf zeroSalt "standard123") = true ∧
    verifyPassword zeroKdf "standard123" (hashPassword zeroKdf zeroSalt "standard123") = true ∧
    ∀ salt2, login zeroKdf salt2
        (some { stdUser with passwordHash := hashPassword zeroKdf zeroSalt "standard123" })
        "standard_user" "standard123" =
      .success { stdUser with passwordHash := hashPassword zeroKdf zeroSalt "standard123" } :=
  c8_legacy_login_migrates zeroKdf zeroSalt stdUser "standard123" (by decide) (by decide)
    (by decide) (by decide) (by decide) (by decide)

theorem updateProduct_ok {s : State} {pid : Nat} {u : UpdateProductInput} {s2 : State}
    (h : updateProduct s pid u = .ok s2) :
    ∃ p, s.products pid = some p ∧
      s2 = { s with products := updateFun s.products pid (some (applyProductUpdate u p)) } := by
  unfold updateProduct at h
  by_cases hpid : pid = 0
  · rw [if_pos hpid] at h
    exact absurd h (by simp)
  · rw [if_neg hpid] at h
    cases hp : s.products pid with
    | none => rw [hp] at h; exact absurd h (by simp)
    | some p =>
      rw [hp] at h
      dsimp only at h
      by_cases hf : hasAnyField u = true
      · rw [if_neg (by simp [hf])] at h
        cases h
        exact ⟨p, rfl, rfl⟩
      · rw [if_pos (by simp [hf])] at h
        exact absurd h (by simp)

theorem filter_orderId_append {old rows : List OrderItemRow} {nid : Nat}
    (hold : ∀ oi ∈ old, oi.orderId ≠ nid) (hrows : ∀ oi ∈ rows, oi.orderId = nid) :
    (old ++ rows).filter (fun oi => oi.orderId == nid) = rows := by
  rw [List.filter_append]
  have h1 : old.filter (fun oi => oi.orderId == nid) = [] := by
    rw [List.filter_eq_nil_iff]
    intro a ha
    simp [hold a ha]
  have h2 : rows.filter (fun oi => oi.orderId == nid) = rows := by
    rw [List.filter_eq_self]
    intro a ha
    simp [hrows a ha]
  rw [h1, h2, List.nil_append]

theorem filterMap_unitPrice (products : Nat → Option Product) :
    ∀ rows : List OrderItemRow, (∀ r ∈ rows, (products r.productId).isSome = true) →
      ((rows.filterMap (fun oi => (products oi.productId).map
          (fun p => (⟨oi.productId, oi.quantity, oi.unitPrice, p.name⟩ : FetchedOrderItem)))).map
        (fun fi => fi.unitPrice)) = rows.map (fun r => r.unitPrice) := by
  intro rows
  induction rows with
  | nil => intro _; rfl
  | cons r rest ih =>
    intro h
    obtain ⟨p, hp⟩ := Option.isSome_iff_exists.mp (h r (List.mem_cons_self _ _))
    simp only [List.filterMap_cons, hp, Option.map_some', List.map_cons]
    rw [ih (fun x hx => h x (List.mem_cons_of_mem _ hx))]

theorem cartDrafts_prices (pm : Nat → Option Product) (cart : Cart) :
    (cartDrafts pm cart).map (fun it => it.price) =
      cart.map (fun l => ((pm l.productId).map (fun p => p.price)).getD 0) := by
  induction cart with
  | nil => rfl
  | cons l rest ih =>
    simp only [cartDrafts, List.map_cons] at ih ⊢
    cases hp : pm l.productId with
    | none => simpa [hp] using ih
    | some p => simpa [hp] using ih

/-- C9: an order created by checkout snapshots each line's catalog unit price
into its `order_items` row; a later product update (any fields, in particular
a price change) touches only the `products` table — the stored `orders` and
`order_items` rows are unchanged — and fetching the order's items afterwards
still returns the unit prices read from the catalog at checkout time. -/
theorem c9_price_snapshot (s s1 s2 : State) (u pidU : Nat) (sid : String)
    (card : String) (ship : Shipping) (upd : UpdateProductInput) (cart : Cart)
    (hcart : s.carts sid = some cart)
    (hfresh : ∀ oi ∈ s.orderItems, oi.orderId ≠ s.nextOrderId)
    (hchk : checkout s u (some sid) card ship = .ok s1)
    (hupd : updateProduct s1 pidU upd = .ok s2) :
    s2.orderItems = s1.orderItems ∧ s2.orders = s1.orders ∧
    (getOrderItems s2 s.nextOrderId).map (fun fi => fi.unitPrice) =
      cart.map (fun l => ((findActiveProduct s.products l.productId).map
        (fun p => p.price)).getD 0) := by
  obtain ⟨sid2, cart2, total, items, hsid, hc2, hne, hloop, hs1⟩ := checkout_ok_cases hchk
  obtain rfl : sid = sid2 := by injection hsid
  rw [hcart] at hc2
  obtain rfl : cart = cart2 := by injection hc2
  obtain ⟨htot, hitems, hres⟩ := checkoutLoop_ok _ cart 0 [] total items hloop
  rw [List.nil_append] at hitems
  obtain ⟨p0, hp0, hs2⟩ := updateProduct_ok hupd
  subst hs1
  subst hs2
  refine ⟨rfl, rfl, ?_⟩
  unfold getOrderItems
  dsimp only
  have hrows : ∀ oi ∈ items.map (fun it =>
      (⟨s.nextOrderId, it.productId, it.quantity, it.price⟩ : OrderItemRow)),
      oi.orderId = s.nextOrderId := by
    intro oi hoi
    obtain ⟨it, hit, rfl⟩ := List.mem_map.mp hoi
    rfl
  rw [filter_orderId_append hfresh hrows]
  have hsome : ∀ r ∈ items.map (fun it =>
      (⟨s.nextOrderId, it.productId, it.quantity, it.price⟩ : OrderItemRow)),
      ((updateFun (items.foldl decrementStock s.products) pidU
        (some (applyProductUpdate upd p0))) r.productId).isSome = true := by
    intro r hr
    obtain ⟨it, hit, rfl⟩ := List.mem_map.mp hr
    dsimp only
    have hsome0 : (s.products it.productId).isSome = true := by
      rw [hitems] at hit
      obtain ⟨l, hl, hpid2, hqty⟩ := mem_cartDrafts hit
      obtain ⟨p, hp, hst⟩ := hres l hl
      rw [hpid2, (findActiveProduct_eq_some hp).1]
      rfl
    have hsome1 : ((items.foldl decrementStock s.products) it.productId).isSome = true :=
      foldl_decrementStock_isSome items s.products it.productId hsome0
    unfold updateFun
    by_cases hpe : it.productId = pidU
    · rw [if_pos hpe]
      rfl
    · rw [if_neg hpe]
      exact hsome1
  rw [filterMap_unitPrice _ _ hsome]
  rw [List.map_map]
  rw [show ((fun r : OrderItemRow => r.unitPrice) ∘ (fun it : OrderItemDraft =>
      (⟨s.nextOrderId, it.productId, it.quantity, it.price⟩ : OrderItemRow))) =
    (fun it : OrderItemDraft => it.price) from rfl]
  rw [hitems]
  exact cartDrafts_prices _ cart

/-- C9 witness: checking out the sample cart (price 10) and then raising the
product's catalog price to 99 leaves the order-items rows unchanged and the
fetched order still shows unit price 10 per line. -/
theorem c9_witness :
    ∃ s1 s2, checkout exState 7 (some "s1") "4111111111111111" exShip = .ok s1 ∧
      updateProduct s1 1 ⟨none, some 99, none, none⟩ = .ok s2 ∧
      s2.orderItems = s1.orderItems ∧ s2.orders = s1.orders ∧
      (getOrderItems s2 exState.nextOrderId).map (fun fi => fi.unitPrice) =
        ([⟨1, 2⟩] : Cart).map (fun l =>
          ((findActiveProduct exState.products l.productId).map
            (fun p => p.price)).getD 0) := by
  refine ⟨_, _, rfl, rfl, ?_⟩
  exact c9_price_snapshot exState _ _ 7 1 "s1" "4111111111111111" exShip
    ⟨none, some 99, none, none⟩ [⟨1, 2⟩] (by decide)
    (by intro oi hoi; exact absurd hoi (List.not_mem_nil oi)) rfl rfl
